import Mathlib

/-!
# Archive Job Engine — verification of the natural-language specification

This file gives a shallow embedding in Lean 4 of the parts of the
Keybase archive-job engine that the specification's claims are about:

* the simplefs archive manager (`archiveManager` in package `simplefs`):
  resumable file copying (`copyFileFromBeginning`, `copyFilePickupPrevious`,
  `copyFile`), the stage workers (indexing / copying / zipping), the error
  table (`setJobError`), the retry worker (`resetInterruptedPhaseLocked`,
  `errorRetryWorker`) and the packaging step (`doZipping`);
* the chat archive registry (`ChatArchiveRegistry` in package `chat`):
  `Pause`, `Resume`, `Set`, `List` with its `ByJobStartedAt` comparator,
  the archiver's `notifyProgress`, and the `tarGzip` packaging step of
  `ArchiveChat`;
* the shared TypeScript utility `mapGetEnsureValue`.

Finite maps from the source (Go maps / JS `Map`) are embedded as functions
into `Option`, byte streams as `List Nat`, and wall-clock instants as `Nat`
(seconds).  SHA-256 is abstracted as an arbitrary digest function parameter:
the source only ever compares digests for equality and records them, so
every theorem below is proved uniformly in that parameter.
-/

/-- Pointwise update of a map embedded as a function into `Option`:
`mapUpd m k v` is the map `m` with the binding of `k` replaced by `v`
(`v = none` models Go's `delete`). -/
def mapUpd {α : Type} [DecidableEq α] {β : Type} (m : α → Option β) (k : α) (v : Option β) :
    α → Option β :=
  fun k' => if k' = k then v else m k'

/-! ## Resumable copier (`src/unnamed/part_001`, `copyFile*`) -/

/-- Outcome of one `copyFile*` call: the returned `sha256Sum`, the final
contents of the destination file, and the sequence of totals passed to the
`bytesCopiedUpdater` callback (one entry per whole `ctxAwareCopy` pass plus
the explicit decrement on a hash mismatch). -/
structure CopyResult where
  sha256Sum : List Nat
  dstBytes : List Nat
  updaterDeltas : List Int
deriving DecidableEq, Repr

/-- Model of `copyFileFromBeginning`: the destination is opened with
`O_TRUNC`, the whole source is streamed through a SHA-256 tee reader by
`ctxAwareCopy` (whose chunked updater calls total the source length), and
the tee digest is returned without verification. -/
def copyFileFromBeginning (sha256 : List Nat → List Nat) (srcBytes : List Nat) : CopyResult :=
  { sha256Sum := sha256 srcBytes
    dstBytes := srcBytes
    updaterDeltas := [(srcBytes.length : Int)] }

/-- Model of `copyFilePickupPrevious`: seek the source to `srcSeekOffset`,
append the remaining bytes to the destination (`O_APPEND`), then re-read the
source from offset 0 into a fresh SHA-256 hasher (the `io.Copy` byte count
of that re-read is `size`), re-read the destination likewise, and compare
the two digests.  On mismatch, call `bytesCopiedUpdater (-size)` and fall
back to `copyFileFromBeginning`; on match return the source digest. -/
def copyFilePickupPrevious (sha256 : List Nat → List Nat)
    (srcBytes dstBytes : List Nat) (srcSeekOffset : Nat) : CopyResult :=
  let appended := srcBytes.drop srcSeekOffset
  let dstAfterAppend := dstBytes ++ appended
  let srcSHA256Sum := sha256 srcBytes
  let size : Int := (srcBytes.length : Int)
  let dstSHA256Sum := sha256 dstAfterAppend
  if srcSHA256Sum = dstSHA256Sum then
    { sha256Sum := srcSHA256Sum
      dstBytes := dstAfterAppend
      updaterDeltas := [(appended.length : Int)] }
  else
    let r := copyFileFromBeginning sha256 srcBytes
    { r with updaterDeltas := (appended.length : Int) :: (-size) :: r.updaterDeltas }

/-- Model of `copyFile`: dispatch on `srcSeekOffset`; `doCopying` passes the
existing destination's size as the offset (and `0` when it does not exist). -/
def copyFile (sha256 : List Nat → List Nat)
    (srcBytes dstBytes : List Nat) (srcSeekOffset : Nat) : CopyResult :=
  if srcSeekOffset = 0 then copyFileFromBeginning sha256 srcBytes
  else copyFilePickupPrevious sha256 srcBytes dstBytes srcSeekOffset

/-! ## Shared TypeScript map utility (`src/shared/util/map.tsx`) -/

/-- Model of `mapGetEnsureValue`: look the key up; if absent, insert the
default and return it, otherwise return the stored value.  The first
component is the map after the call (JS mutates in place). -/
def mapGetEnsureValue {α : Type} [DecidableEq α] {β : Type}
    (m : α → Option β) (key : α) (dflt : β) : (α → Option β) × β :=
  match m key with
  | none => (mapUpd m key (some dflt), dflt)
  | some v => (m, v)

/-! ## Chat archiver progress (`src/unnamed/part_000`, `notifyProgress`) -/

/-- Model of `notifyProgress`: add the page's `pagination.Num` to the running
`messagesComplete`; if that exceeds `messagesTotal` or the page's `Last` flag
is set, replace it by `messagesTotal`; the result is both the new counter and
the value reported to `HandleChatArchiveProgress`. -/
def notifyProgress (messagesComplete messagesTotal num : Int) (last : Bool) : Int :=
  if messagesComplete + num > messagesTotal ∨ last then messagesTotal
  else messagesComplete + num

/-! ## simplefs archive manager (`src/unnamed/part_001`) -/

/-- `keybase1.SimpleFSArchiveJobPhase`, as used by the source: `Queued`,
`Indexing`, `Indexed`, `Copying`, `Copied`, `Zipping`, `Done`.  These are the
only phase constructors the archive manager refers to; in particular there is
no error phase — errors live in the side table `archiveManager.errors`. -/
inductive SFSPhase
  | Queued
  | Indexing
  | Indexed
  | Copying
  | Copied
  | Zipping
  | Done
deriving DecidableEq, Repr

/-- `errorState`: the message of the failure and `nextRetry` (seconds). -/
structure SFSErrState where
  errMsg : String
  nextRetry : Nat
deriving DecidableEq, Repr

/-- The mutable state of `archiveManager` that the claims are about: the
per-job phase (from `state.Jobs`), the `errors` side table, membership in
`jobCtxCancellers`, and the three capacity-1 worker signal channels (a
channel is modelled by whether a pulse is pending in it). -/
structure SFSState where
  jobs : String → Option SFSPhase
  errors : String → Option SFSErrState
  jobCtxCancellers : String → Bool
  indexingWorkerSignal : Bool
  copyingWorkerSignal : Bool
  zippingWorkerSignal : Bool

/-- `archiveErrorRetryDuration = time.Minute`, in seconds. -/
def archiveErrorRetryDuration : Nat := 60

/-- Model of `setJobError`: record `errorState{err, nextRetry = now + 1m}` in
the `errors` map.  Nothing else of the state is touched — in particular the
job's phase is left as it is. -/
def setJobError (s : SFSState) (jobID : String) (errMsg : String) (now : Nat) : SFSState :=
  { s with errors := mapUpd s.errors jobID (some ⟨errMsg, now + archiveErrorRetryDuration⟩) }

/-- The three stage workers, which share one loop shape. -/
inductive Stage
  | indexing
  | copying
  | zipping
deriving DecidableEq, Repr

/-- The phase a stage's `startWorkerTask` looks for. -/
def eligiblePhase : Stage → SFSPhase
  | .indexing => .Queued
  | .copying => .Indexed
  | .zipping => .Copied

/-- The phase a stage's `startWorkerTask` moves a claimed job to. -/
def workingPhase : Stage → SFSPhase
  | .indexing => .Indexing
  | .copying => .Copying
  | .zipping => .Zipping

/-- The phase a stage's worker records on success. -/
def completedPhase : Stage → SFSPhase
  | .indexing => .Indexed
  | .copying => .Copied
  | .zipping => .Done

/-- Model of the claim step of `startWorkerTask` for the job it picks: move
it from the eligible phase to the working phase and register the fresh
`cancel` in `jobCtxCancellers`. -/
def startWorkerTask (s : SFSState) (jobID : String) (st : Stage) : SFSState :=
  { s with
    jobs := mapUpd s.jobs jobID (some (workingPhase st))
    jobCtxCancellers := fun k => if k = jobID then true else s.jobCtxCancellers k }

/-- Model of `m.signal ch` on the worker's own channel (capacity 1; a pulse
into a full channel is dropped, so the channel simply ends up non-empty). -/
def signalOwn (st : Stage) (s : SFSState) : SFSState :=
  match st with
  | .indexing => { s with indexingWorkerSignal := true }
  | .copying => { s with copyingWorkerSignal := true }
  | .zipping => { s with zippingWorkerSignal := true }

/-- The signal a stage's worker pulses on success: indexing notifies the
copying worker, copying notifies the zipping worker, zipping notifies
nobody. -/
def signalNext (st : Stage) (s : SFSState) : SFSState :=
  match st with
  | .indexing => { s with copyingWorkerSignal := true }
  | .copying => { s with zippingWorkerSignal := true }
  | .zipping => s

/-- One pass of a stage worker (`indexingWorker` / `copyingWorker` /
`zippingWorker`) over the job `jobID` it claimed, given the outcome
`result` of the stage body (`doIndexing` / `doCopying` / `doZipping`):
claim the job (working phase + canceller), re-pulse the worker's own signal,
then on success record the completed phase and pulse the next stage's
signal, and on error call `setJobError` — which leaves the phase alone. -/
def workerPass (st : Stage) (s : SFSState) (jobID : String) (now : Nat)
    (result : Except String Unit) : SFSState :=
  let s1 := signalOwn st (startWorkerTask s jobID st)
  match result with
  | .ok _ => signalNext st { s1 with jobs := mapUpd s1.jobs jobID (some (completedPhase st)) }
  | .error e => setJobError s1 jobID e now

/-- Model of `resetInterruptedPhaseLocked` as the phase mapping it applies:
`some` of the reverted phase for the three working phases (`changed = true`),
`none` for every other phase (`changed = false`). -/
def resetInterruptedPhase : SFSPhase → Option SFSPhase
  | .Indexing => some .Queued
  | .Copying => some .Indexed
  | .Zipping => some .Copied
  | _ => none

/-- One iteration of the `errorRetryWorker` loop body for a single `jobID`:
skip jobs without an error record or whose `nextRetry` is still in the
future; otherwise apply `resetInterruptedPhaseLocked`, and only if it
changed the phase delete the error record and pulse all three stage
signals.  (A missing job gives Go's zero phase value, which falls in the
`changed = false` branch, so it is folded into the `none` case.) -/
def errorRetryStep (s : SFSState) (jobID : String) (now : Nat) : SFSState :=
  match s.errors jobID with
  | none => s
  | some es =>
    if now < es.nextRetry then s
    else
      match (s.jobs jobID).bind resetInterruptedPhase with
      | none => s
      | some reverted =>
        { s with
          jobs := mapUpd s.jobs jobID (some reverted)
          errors := mapUpd s.errors jobID none
          indexingWorkerSignal := true
          copyingWorkerSignal := true
          zippingWorkerSignal := true }

/-- A concrete manager state with a single job `"j"` in phase `p`, no error
records, no registered cancellers and no pending signals; used to evaluate
the worker and retry models at concrete inputs. -/
def sfsState1 (p : SFSPhase) : SFSState :=
  { jobs := fun k => if k = "j" then some p else none
    errors := fun _ => none
    jobCtxCancellers := fun _ => false
    indexingWorkerSignal := false
    copyingWorkerSignal := false
    zippingWorkerSignal := false }

/-- A concrete manager state with the single job `"j"` in phase `p` and an
error record for `"j"` whose `nextRetry` is 5. -/
def sfsErrState1 (p : SFSPhase) : SFSState :=
  { sfsState1 p with errors := fun k => if k = "j" then some ⟨"boom", 5⟩ else none }

/-! ## Chat archive registry (`src/unnamed/part_000`) -/

/-- `chat1.ArchiveChatJobStatus`, as used by the source. -/
inductive ChatStatus
  | RUNNING
  | PAUSED
  | BACKGROUND_PAUSED
  | COMPLETE
  | ERROR
deriving DecidableEq, Repr

/-- The fields of `chat1.ArchiveChatJob` that the registry operations read:
the immutable `Request.JobID`, `StartedAt`, the status, and the last error
message. -/
structure ChatJob where
  jobID : String
  startedAt : Nat
  status : ChatStatus
  errMsg : String
deriving DecidableEq, Repr

/-- The `ChatArchiveRegistry` state the claims are about: the persisted
`jobHistory` map and the `runningJobs` cancel-handle map.  A cancel handle
`types.CancelArchiveFn` cancels the executor, blocks until it drains, and
returns the job's latest snapshot; the registry only ever stores non-nil
handles (`Set` guards on `cancel != nil`), so a handle is embedded as the
snapshot it returns. -/
structure ChatRegistry where
  jobHistory : String → Option ChatJob
  runningJobs : String → Option ChatJob
  dirty : Bool

/-- The errors the registry operations return (`nil` = `none`):
`ArchiveJobNotFoundError`, the `fmt.Errorf` for pausing a non-running job,
and the `fmt.Errorf` for resuming a non-paused job. -/
inductive RegError
  | notFound (jobID : String)
  | notRunning (status : ChatStatus)
  | notPaused (status : ChatStatus)
deriving DecidableEq, Repr

/-- Model of `ChatArchiveRegistry.Pause`: look the job up (`NotFound` when
absent); reject with an explicit error when its status is not `RUNNING`;
look up the cancel handle (`NotFound` when absent); otherwise invoke the
handle, mark its snapshot `PAUSED`, store it back in the history, drop the
handle and set the dirty bit. -/
def Pause (r : ChatRegistry) (jobID : String) : ChatRegistry × Option RegError :=
  match r.jobHistory jobID with
  | none => (r, some (.notFound jobID))
  | some job =>
    if job.status ≠ .RUNNING then (r, some (.notRunning job.status))
    else
      match r.runningJobs jobID with
      | none => (r, some (.notFound jobID))
      | some snapshot =>
        ({ jobHistory := mapUpd r.jobHistory jobID (some { snapshot with status := .PAUSED })
           runningJobs := mapUpd r.runningJobs jobID none
           dirty := true }, none)

/-- Model of `ChatArchiveRegistry.Resume`: look the job up (`NotFound` when
absent); accept statuses `ERROR`, `PAUSED` and `BACKGROUND_PAUSED`, for
which a fresh executor is spawned in a detached task (which re-registers
itself, so the registry state is unchanged at return); reject every other
status with an explicit error. -/
def Resume (r : ChatRegistry) (jobID : String) : ChatRegistry × Option RegError :=
  match r.jobHistory jobID with
  | none => (r, some (.notFound jobID))
  | some job =>
    match job.status with
    | .ERROR => (r, none)
    | .PAUSED => (r, none)
    | .BACKGROUND_PAUSED => (r, none)
    | _ => (r, some (.notPaused job.status))

/-- Model of `ChatArchiveRegistry.Set` (named `setJob` here because `Set` is
taken in Lean): on status `COMPLETE` or `ERROR` the cancel handle is
deleted; on `RUNNING` a non-nil handle is stored (a nil one leaves the
handle map alone); every other status leaves the handle map alone.  The job
is stored in the history and the dirty bit is set in all cases. -/
def setJob (r : ChatRegistry) (cancel : Option ChatJob) (job : ChatJob) : ChatRegistry :=
  let running :=
    match job.status with
    | .COMPLETE => mapUpd r.runningJobs job.jobID none
    | .ERROR => mapUpd r.runningJobs job.jobID none
    | .RUNNING =>
      match cancel with
      | some c => mapUpd r.runningJobs job.jobID (some c)
      | none => r.runningJobs
    | _ => r.runningJobs
  { jobHistory := mapUpd r.jobHistory job.jobID (some job)
    runningJobs := running
    dirty := true }

/-- A concrete registry with one job `"j"` at status `st` and `startedAt 3`,
and a running handle for `"j"` exactly when `withHandle` is set (the handle's
snapshot carries status `RUNNING`). -/
def chatRegistry1 (st : ChatStatus) (withHandle : Bool) : ChatRegistry :=
  { jobHistory := fun k => if k = "j" then some ⟨"j", 3, st, ""⟩ else none
    runningJobs := fun k =>
      if k = "j" ∧ withHandle then some ⟨"j", 3, .RUNNING, ""⟩ else none
    dirty := false }

/-! ## Packaging (`src/unnamed/part_001`, `doZipping`) -/

/-- The two `os.OpenFile` flag sets `doZipping` chooses between:
`O_WRONLY|O_CREATE|O_EXCL` and `O_WRONLY|O_CREATE|O_TRUNC`. -/
inductive ZipOpenMode
  | exclCreate
  | truncCreate
deriving DecidableEq, Repr

/-- The mode selection in `doZipping`: exclusive create unless the
descriptor's `OverwriteZip` flag is set, in which case truncate-create. -/
def zipOpenMode (overwriteZip : Bool) : ZipOpenMode :=
  if overwriteZip then .truncCreate else .exclCreate

/-- Model of `os.OpenFile` on the archive path: with `O_EXCL` it fails when a
file already exists there and otherwise creates an empty file; with `O_TRUNC`
it succeeds and resets any existing contents.  The `ok` payload is the file's
initial contents after opening. -/
def osOpenFile : ZipOpenMode → Option String → Except String String
  | .exclCreate, some _ => .error "file exists"
  | .exclCreate, none => .ok ""
  | .truncCreate, _ => .ok ""

/-- Outcome of `doZipping` on one job: the returned error (if any), the
contents of the file at `ZipFilePath` afterwards (`none` = no file), and
whether the staging workspace tree was removed. -/
structure ZipOutcome where
  result : Except String Unit
  zipFile : Option String
  workspaceRemoved : Bool
deriving Repr

/-- Model of `doZipping`, abstracting the `zipWriterAddDir` walk of the
workspace as `archive` (its produced bytes, or its failure).  Open the
archive path with the selected mode; on open failure return that error
leaving the existing file and the workspace in place; on a walk failure
leave the partial archive for inspection; on success remove the workspace. -/
def doZipping (overwriteZip : Bool) (existingZip : Option String)
    (archive : Except String String) : ZipOutcome :=
  match osOpenFile (zipOpenMode overwriteZip) existingZip with
  | .error e => { result := .error e, zipFile := existingZip, workspaceRemoved := false }
  | .ok opened =>
    match archive with
    | .error e => { result := .error e, zipFile := some opened, workspaceRemoved := false }
    | .ok bs => { result := .ok (), zipFile := some bs, workspaceRemoved := true }

/-- Outcome of the chat variant's compress step: the returned error (if
any), the contents of the file at `outputPath + ".tar.gzip"` afterwards,
and whether the staging tree at `outputPath` was removed. -/
structure ChatPackOutcome where
  result : Except String Unit
  archiveFile : Option String
  stagingRemoved : Bool
deriving Repr

/-- Model of the chat packaging run (`ArchiveChat`'s `Compress` branch
calling `tarGzip`): `tarGzip` opens the archive path with `os.Create`,
i.e. create-truncate — there is no exclusive-create path and the chat job
request has no overwrite flag — so any existing file is replaced
unconditionally; the walk of the staging tree is abstracted as `walk`
(the produced archive bytes, or its failure).  On success `ArchiveChat`
removes the staging tree; on failure the partial archive is left and the
staging tree kept. -/
def archiveChatCompress (existingArchive : Option String)
    (walk : Except String String) : ChatPackOutcome :=
  match osOpenFile .truncCreate existingArchive with
  | .error e =>
    { result := .error e, archiveFile := existingArchive, stagingRemoved := false }
  | .ok opened =>
    match walk with
    | .error e => { result := .error e, archiveFile := some opened, stagingRemoved := false }
    | .ok bs => { result := .ok (), archiveFile := some bs, stagingRemoved := true }

/-! ## Listing (`src/unnamed/part_000`, `ByJobStartedAt` and `List`) -/

/-- Model of the `ByJobStartedAt.Less` comparator: compare `StartedAt`
first, break ties by `Request.JobID`. -/
def jobLess (x y : ChatJob) : Bool :=
  if x.startedAt = y.startedAt then decide (x.jobID < y.jobID)
  else decide (x.startedAt < y.startedAt)

/-- The sort key `(startedAt, jobID)` of a job, under the lexicographic
order. -/
def jobKey (j : ChatJob) : Nat ×ₗ String :=
  toLex (j.startedAt, j.jobID)

/-- The non-strict order induced by `ByJobStartedAt.Less` (`jobLe x y`
holds when `Less` does not place `y` strictly before `x`); the theorem
`listJobs_sorted_deterministic` records that this agrees with
`jobLess y x = false`. -/
@[reducible] def jobLe (x y : ChatJob) : Prop :=
  jobKey x ≤ jobKey y

instance : DecidableRel jobLe :=
  fun x y => inferInstanceAs (Decidable (jobKey x ≤ jobKey y))

instance : IsTotal ChatJob jobLe :=
  ⟨fun a b => le_total (jobKey a) (jobKey b)⟩

instance : IsTrans ChatJob jobLe :=
  ⟨fun _ _ _ hab hbc => le_trans hab hbc⟩

/-- Model of `ChatArchiveRegistry.List`: collect the history's jobs (in
whatever order the map iteration yields them) and sort them with
`sort.Sort(ByJobStartedAt(...))`.  Go's `sort.Sort` guarantees exactly that
the output is a permutation of the input that is sorted with respect to the
comparator, which an insertion sort by the induced non-strict order
produces. -/
def listJobs (jobs : List ChatJob) : List ChatJob :=
  List.insertionSort jobLe jobs

/-! # Theorems -/

/-- C9: `mapGetEnsureValue` returns the stored value and leaves the map
unchanged when the key is present; when absent it inserts the default under
the key and returns it; in both cases the resulting map contains the key and
maps it to the returned value. -/
theorem mapGetEnsureValue_spec {α : Type} [DecidableEq α] {β : Type}
    (m : α → Option β) (key : α) (dflt : β) :
    (∀ v, m key = some v → mapGetEnsureValue m key dflt = (m, v)) ∧
    (m key = none →
      (mapGetEnsureValue m key dflt).2 = dflt ∧
      (mapGetEnsureValue m key dflt).1 key = some dflt ∧
      ∀ k, k ≠ key → (mapGetEnsureValue m key dflt).1 k = m k) ∧
    (mapGetEnsureValue m key dflt).1 key = some (mapGetEnsureValue m key dflt).2 := by
  refine ⟨fun v hv => ?_, fun hnone => ?_, ?_⟩
  · simp [mapGetEnsureValue, hv]
  · refine ⟨?_, ?_, fun k hk => ?_⟩
    · simp [mapGetEnsureValue, hnone]
    · simp [mapGetEnsureValue, hnone, mapUpd]
    · simp [mapGetEnsureValue, hnone, mapUpd, hk]
  · cases hk : m key with
    | none => simp [mapGetEnsureValue, hk, mapUpd]
    | some v => simp [mapGetEnsureValue, hk]

/-- Witness for C9: a concrete map with key `0` present and key `1` absent. -/
theorem mapGetEnsureValue_spec_witness :
    mapGetEnsureValue (fun k : Nat => if k = 0 then some 10 else none) 0 99 =
      ((fun k : Nat => if k = 0 then some 10 else none), 10) ∧
    (mapGetEnsureValue (fun k : Nat => if k = 0 then some 10 else none) 1 99).2 = 99 ∧
    (mapGetEnsureValue (fun k : Nat => if k = 0 then some 10 else none) 1 99).1 1 = some 99 :=
  ⟨(mapGetEnsureValue_spec (fun k : Nat => if k = 0 then some 10 else none) 0 99).1 10 rfl,
   ((mapGetEnsureValue_spec (fun k : Nat => if k = 0 then some 10 else none) 1 99).2.1 rfl).1,
   ((mapGetEnsureValue_spec (fun k : Nat => if k = 0 then some 10 else none) 1 99).2.1 rfl).2.1⟩

/-- C10: the progress value reported by `notifyProgress` never exceeds
`messagesTotal`: the running completed count is clamped to the total exactly
when it would exceed the total or the page's `Last` flag is set, and the
clamped value is what is reported. -/
theorem notifyProgress_le_total (messagesComplete messagesTotal num : Int) (last : Bool) :
    notifyProgress messagesComplete messagesTotal num last ≤ messagesTotal ∧
    notifyProgress messagesComplete messagesTotal num last =
      (if messagesComplete + num > messagesTotal ∨ last then messagesTotal
       else messagesComplete + num) := by
  unfold notifyProgress
  constructor
  · split
    · exact le_refl _
    · next h =>
      push_neg at h
      exact h.1
  · rfl

/-- C1: for a regular-file entry whose destination already exists with
`0 < dstSize` (and, as the claim's "remaining source bytes starting at offset
`dstSize`" presupposes, `dstSize ≤ srcSize`), the copy appends the remaining
source bytes at offset `dstSize` and hashes both full re-reads.  If the
digests match, that digest is recorded and the destination is the appended
file; if they differ, the updater is decremented by the discarded
destination's length and the file is restarted from byte 0, ending with the
source contents.  In every outcome the recorded digest is the SHA-256 of the
source contents. -/
theorem copyFile_resume_correct (sha256 : List Nat → List Nat) (srcBytes dstBytes : List Nat)
    (hpos : 0 < dstBytes.length) (hle : dstBytes.length ≤ srcBytes.length) :
    (copyFile sha256 srcBytes dstBytes dstBytes.length).sha256Sum = sha256 srcBytes ∧
    (sha256 srcBytes = sha256 (dstBytes ++ srcBytes.drop dstBytes.length) →
      (copyFile sha256 srcBytes dstBytes dstBytes.length).dstBytes =
        dstBytes ++ srcBytes.drop dstBytes.length ∧
      (copyFile sha256 srcBytes dstBytes dstBytes.length).updaterDeltas =
        [((srcBytes.length - dstBytes.length : Nat) : Int)]) ∧
    (sha256 srcBytes ≠ sha256 (dstBytes ++ srcBytes.drop dstBytes.length) →
      (copyFile sha256 srcBytes dstBytes dstBytes.length).dstBytes = srcBytes ∧
      (copyFile sha256 srcBytes dstBytes dstBytes.length).updaterDeltas =
        [((srcBytes.length - dstBytes.length : Nat) : Int),
         -(((dstBytes ++ srcBytes.drop dstBytes.length).length : Nat) : Int),
         ((srcBytes.length : Nat) : Int)]) := by
  have hne : dstBytes.length ≠ 0 := Nat.pos_iff_ne_zero.mp hpos
  have hdisc : (dstBytes ++ srcBytes.drop dstBytes.length).length = srcBytes.length := by
    simp [List.length_append, List.length_drop]
    omega
  unfold copyFile copyFilePickupPrevious copyFileFromBeginning
  simp only [if_neg hne]
  refine ⟨?_, fun hmatch => ?_, fun hmismatch => ?_⟩
  · split <;> rfl
  · rw [if_pos hmatch]
    exact ⟨rfl, by simp [List.length_drop]⟩
  · rw [if_neg hmismatch]
    refine ⟨rfl, ?_⟩
    simp [List.length_drop, hdisc]

/-- Witness for C1 at a concrete input: source `[1, 2]`, existing destination
`[1]`, digest function taken as the identity (digests are only compared and
recorded, so the theorem holds for any digest function). -/
theorem copyFile_resume_correct_witness :
    (copyFile (fun l => l) [1, 2] [1] (List.length [1])).sha256Sum = [1, 2] ∧
    (copyFile (fun l => l) [1, 2] [1] (List.length [1])).dstBytes = [1, 2] ∧
    (copyFile (fun l => l) [1, 2] [1] (List.length [1])).updaterDeltas = [(1 : Int)] := by
  have h := copyFile_resume_correct (fun l => l) [1, 2] [1] (by decide) (by decide)
  exact ⟨h.1, (h.2.1 rfl).1, (h.2.1 rfl).2⟩

/-- Counterexample for C2: when `doIndexing` fails on job `"j"`, the worker
records an error state but the job's phase is left at the working phase
`Indexing` — it is not moved to any error phase (the phase enumeration
mirrored from the source has no error constructor at all), refuting "the
job's phase is set to Error". -/
theorem indexingFailure_keeps_working_phase :
    (workerPass .indexing (sfsState1 .Queued) "j" 0 (.error "io error")).jobs "j" =
      some SFSPhase.Indexing ∧
    (workerPass .indexing (sfsState1 .Queued) "j" 0 (.error "io error")).errors "j" =
      some ⟨"io error", 60⟩ := by
  constructor <;> rfl

/-- C2 (amended): when a stage worker's body fails, the job's phase remains
the working phase of that stage (there is no error phase to move it to), and
an `errorState` record is created for the job with
`nextRetry = failure time + archiveErrorRetryDuration` (60 seconds). -/
theorem workerFailure_records_error (st : Stage) (s : SFSState) (jobID : String)
    (now : Nat) (errMsg : String) (h : s.jobs jobID = some (eligiblePhase st)) :
    (workerPass st s jobID now (.error errMsg)).jobs jobID = some (workingPhase st) ∧
    (workerPass st s jobID now (.error errMsg)).errors jobID =
      some ⟨errMsg, now + archiveErrorRetryDuration⟩ ∧
    archiveErrorRetryDuration = 60 := by
  cases st <;>
    simp [workerPass, setJobError, signalOwn, startWorkerTask, mapUpd,
      archiveErrorRetryDuration]

/-- Witness for C2 (amended) at a concrete input: a copying-worker failure. -/
theorem workerFailure_records_error_witness :
    (workerPass .copying (sfsState1 .Indexed) "j" 100 (.error "boom")).jobs "j" =
      some SFSPhase.Copying ∧
    (workerPass .copying (sfsState1 .Indexed) "j" 100 (.error "boom")).errors "j" =
      some ⟨"boom", 160⟩ := by
  have h := workerFailure_records_error .copying (sfsState1 .Indexed) "j" 100 "boom" rfl
  exact ⟨h.1, h.2.1⟩

/-- C3: for a job with an error record whose `nextRetry` has passed, one
iteration of the retry worker reverts the phase by Indexing → Queued,
Copying → Indexed, Zipping → Copied, deletes the error record and pulses all
three stage signals; a job with an error record in any non-working phase
(or no record in the job table) is left completely unchanged, error record
included. -/
theorem errorRetry_reverts_phases (s : SFSState) (jobID : String) (now : Nat)
    (es : SFSErrState) (he : s.errors jobID = some es) (ht : es.nextRetry ≤ now) :
    ((s.jobs jobID = some .Indexing →
        (errorRetryStep s jobID now).jobs jobID = some SFSPhase.Queued) ∧
     (s.jobs jobID = some .Copying →
        (errorRetryStep s jobID now).jobs jobID = some SFSPhase.Indexed) ∧
     (s.jobs jobID = some .Zipping →
        (errorRetryStep s jobID now).jobs jobID = some SFSPhase.Copied) ∧
     (∀ p, s.jobs jobID = some p → resetInterruptedPhase p ≠ none →
        (errorRetryStep s jobID now).errors jobID = none ∧
        (errorRetryStep s jobID now).indexingWorkerSignal = true ∧
        (errorRetryStep s jobID now).copyingWorkerSignal = true ∧
        (errorRetryStep s jobID now).zippingWorkerSignal = true) ∧
     (∀ p, s.jobs jobID = some p → resetInterruptedPhase p = none →
        errorRetryStep s jobID now = s) ∧
     (s.jobs jobID = none → errorRetryStep s jobID now = s)) := by
  have hnot : ¬ now < es.nextRetry := not_lt.mpr ht
  refine ⟨fun h => ?_, fun h => ?_, fun h => ?_, fun p h hp => ?_, fun p h hp => ?_,
    fun h => ?_⟩ <;>
    simp [errorRetryStep, he, hnot, h, resetInterruptedPhase, mapUpd] at *
  · cases p <;> simp_all [resetInterruptedPhase, mapUpd]
  · cases p <;> simp_all [resetInterruptedPhase]

/-- Witness for C3 at a concrete input: job `"j"` in phase `Copying` with an
error record due at 5, retried at time 10, reverts to `Indexed`; and the
same job in the non-working phase `Done` is left unchanged. -/
theorem errorRetry_reverts_phases_witness :
    (errorRetryStep (sfsErrState1 .Copying) "j" 10).jobs "j" = some SFSPhase.Indexed ∧
    (errorRetryStep (sfsErrState1 .Copying) "j" 10).errors "j" = none ∧
    errorRetryStep (sfsErrState1 .Done) "j" 10 = sfsErrState1 .Done := by
  have h1 := errorRetry_reverts_phases (sfsErrState1 .Copying) "j" 10 ⟨"boom", 5⟩
    rfl (by decide)
  have h2 := errorRetry_reverts_phases (sfsErrState1 .Done) "j" 10 ⟨"boom", 5⟩
    rfl (by decide)
  exact ⟨h1.2.1 rfl, (h1.2.2.2.1 .Copying rfl (by decide)).1,
    h2.2.2.2.2.1 .Done rfl rfl⟩

/-- C4: `Pause` returns `NotFound` when the job is absent or when the job is
`RUNNING` but no cancel handle is registered; it returns the explicit
non-`NotFound` "cannot pause a non-running job" error when the job exists in
any other status (leaving the registry untouched); and for a `RUNNING` job
with a registered handle it invokes the handle and stores its snapshot back
with status `PAUSED`, dropping the handle. -/
theorem Pause_spec (r : ChatRegistry) (jobID : String) :
    (r.jobHistory jobID = none → Pause r jobID = (r, some (.notFound jobID))) ∧
    (∀ job, r.jobHistory jobID = some job → job.status ≠ .RUNNING →
      Pause r jobID = (r, some (.notRunning job.status)) ∧
      ∀ i, (RegError.notRunning job.status) ≠ .notFound i) ∧
    (∀ job, r.jobHistory jobID = some job → job.status = .RUNNING →
      r.runningJobs jobID = none →
      Pause r jobID = (r, some (.notFound jobID))) ∧
    (∀ job snapshot, r.jobHistory jobID = some job → job.status = .RUNNING →
      r.runningJobs jobID = some snapshot →
      (Pause r jobID).2 = none ∧
      (Pause r jobID).1.jobHistory jobID = some { snapshot with status := .PAUSED } ∧
      (Pause r jobID).1.runningJobs jobID = none) := by
  refine ⟨fun h => ?_, fun job h hs => ⟨?_, fun i => ?_⟩, fun job h hs hr => ?_,
    fun job snapshot h hs hr => ?_⟩
  · simp [Pause, h]
  · simp [Pause, h, hs]
  · simp
  · simp [Pause, h, hs, hr]
  · refine ⟨?_, ?_, ?_⟩ <;> simp [Pause, h, hs, hr, mapUpd]

/-- Witness for C4 at concrete inputs: pausing the running job `"j"` with a
handle succeeds and lands it in `PAUSED`; pausing it while `PAUSED` yields
the explicit non-running error; pausing it while `RUNNING` without a handle
yields `NotFound`. -/
theorem Pause_spec_witness :
    (Pause (chatRegistry1 .RUNNING true) "j").2 = none ∧
    (Pause (chatRegistry1 .RUNNING true) "j").1.jobHistory "j" =
      some ⟨"j", 3, .PAUSED, ""⟩ ∧
    (Pause (chatRegistry1 .RUNNING true) "j").1.runningJobs "j" = none ∧
    Pause (chatRegistry1 .PAUSED false) "j" =
      (chatRegistry1 .PAUSED false, some (.notRunning .PAUSED)) ∧
    Pause (chatRegistry1 .RUNNING false) "j" =
      (chatRegistry1 .RUNNING false, some (.notFound "j")) := by
  have hs := (Pause_spec (chatRegistry1 .RUNNING true) "j").2.2.2 ⟨"j", 3, .RUNNING, ""⟩
    ⟨"j", 3, .RUNNING, ""⟩ rfl rfl rfl
  have hp := ((Pause_spec (chatRegistry1 .PAUSED false) "j").2.1 ⟨"j", 3, .PAUSED, ""⟩
    rfl (by decide)).1
  have hn := (Pause_spec (chatRegistry1 .RUNNING false) "j").2.2.1 ⟨"j", 3, .RUNNING, ""⟩
    rfl rfl (by decide)
  exact ⟨hs.1, hs.2.1, hs.2.2, hp, hn⟩

/-- Counterexample for C5: resuming the job `"j"` that is already in status
`COMPLETE` (the Done phase) is not an error-free no-op returning Done — the
source's `Resume` falls through to
`fmt.Errorf("Cannot resume a non-paused job. Found status %v", ...)`,
so an error is produced. -/
theorem resume_complete_returns_error :
    (Resume (chatRegistry1 .COMPLETE false) "j").2 = some (.notPaused .COMPLETE) ∧
    (Resume (chatRegistry1 .COMPLETE false) "j").2 ≠ none := by
  exact ⟨rfl, by decide⟩

/-- C5 (amended): resuming a job whose status is `COMPLETE` leaves the
registry unchanged but returns the explicit "cannot resume a non-paused
job" error; only `PAUSED`, `BACKGROUND_PAUSED` and `ERROR` jobs are
accepted by `Resume`. -/
theorem Resume_complete_rejected (r : ChatRegistry) (jobID : String) (job : ChatJob)
    (h : r.jobHistory jobID = some job) :
    (job.status = .COMPLETE → Resume r jobID = (r, some (.notPaused .COMPLETE))) ∧
    (job.status = .PAUSED ∨ job.status = .BACKGROUND_PAUSED ∨ job.status = .ERROR →
      Resume r jobID = (r, none)) := by
  cases job with
  | mk id sAt st e =>
    refine ⟨fun hc => ?_, fun hv => ?_⟩
    · cases hc
      simp [Resume, h]
    · rcases hv with hc | hc | hc <;> (cases hc; simp [Resume, h])

/-- Witness for C5 (amended) at a concrete input: resuming the completed job
`"j"` is rejected with the explicit error and the registry is unchanged,
while resuming it when paused is accepted. -/
theorem Resume_complete_rejected_witness :
    Resume (chatRegistry1 .COMPLETE false) "j" =
      (chatRegistry1 .COMPLETE false, some (.notPaused .COMPLETE)) ∧
    Resume (chatRegistry1 .PAUSED false) "j" = (chatRegistry1 .PAUSED false, none) :=
  ⟨(Resume_complete_rejected (chatRegistry1 .COMPLETE false) "j" ⟨"j", 3, .COMPLETE, ""⟩
      rfl).1 rfl,
   (Resume_complete_rejected (chatRegistry1 .PAUSED false) "j" ⟨"j", 3, .PAUSED, ""⟩
      rfl).2 (Or.inl rfl)⟩

/-- Counterexample for C7: a chat packaging run (`ArchiveChat` with
`Compress` set, calling `tarGzip`) over a target path where an archive file
already exists does not fail with exclusive-create — the chat job request
has no overwrite flag at all, yet `os.Create` silently replaces the
existing file and the run succeeds, refuting "opened with exclusive-create
(failing if a file already exists at the target path) unless the
descriptor's overwrite flag is true" for the chat variant the claim's
sources cite. -/
theorem chat_packaging_replaces_existing_archive :
    (archiveChatCompress (some "old") (.ok "new")).result = .ok () ∧
    (archiveChatCompress (some "old") (.ok "new")).archiveFile = some "new" ∧
    (archiveChatCompress (some "old") (.ok "new")).stagingRemoved = true :=
  ⟨rfl, rfl, rfl⟩

/-- C7 (amended): in the simplefs packaging phase the archive file is opened
with exclusive create, so packaging fails (leaving the existing file and the
staging tree untouched) when a file already exists at the target path and
the descriptor's `OverwriteZip` flag is false, while with the flag set an
existing file is replaced; in the chat variant, whose descriptor has no
overwrite flag, the archive is always opened with create-truncate and an
existing file is always replaced; in both variants the staging tree is
removed exactly on packaging success. -/
theorem packaging_open_and_staging_removal (overwriteZip : Bool) (existingZip : Option String)
    (archive : Except String String) :
    (overwriteZip = false → ∀ c, existingZip = some c →
      (doZipping overwriteZip existingZip archive).result = .error "file exists" ∧
      (doZipping overwriteZip existingZip archive).zipFile = some c ∧
      (doZipping overwriteZip existingZip archive).workspaceRemoved = false) ∧
    (overwriteZip = true → ∀ bs, archive = .ok bs →
      (doZipping overwriteZip existingZip archive).result = .ok () ∧
      (doZipping overwriteZip existingZip archive).zipFile = some bs ∧
      (doZipping overwriteZip existingZip archive).workspaceRemoved = true) ∧
    (existingZip = none → ∀ bs, archive = .ok bs →
      (doZipping overwriteZip existingZip archive).result = .ok () ∧
      (doZipping overwriteZip existingZip archive).zipFile = some bs) ∧
    ((doZipping overwriteZip existingZip archive).result = .ok () →
      (doZipping overwriteZip existingZip archive).workspaceRemoved = true) ∧
    (∀ (old : Option String) walk bs, walk = Except.ok bs →
      (archiveChatCompress old walk).result = .ok () ∧
      (archiveChatCompress old walk).archiveFile = some bs ∧
      (archiveChatCompress old walk).stagingRemoved = true) ∧
    (∀ (old : Option String) walk, (archiveChatCompress old walk).result = .ok () →
      (archiveChatCompress old walk).stagingRemoved = true) := by
  refine ⟨fun ho c he => ?_, fun ho bs ha => ?_, fun he bs ha => ?_, fun hok => ?_,
    fun old walk bs hw => ?_, fun old walk hok => ?_⟩
  · subst ho he; simp [doZipping, zipOpenMode, osOpenFile]
  · subst ho ha; simp [doZipping, zipOpenMode, osOpenFile]
  · subst he ha; cases overwriteZip <;> simp [doZipping, zipOpenMode, osOpenFile]
  · unfold doZipping at hok ⊢
    cases h1 : osOpenFile (zipOpenMode overwriteZip) existingZip with
    | error e => simp [h1] at hok
    | ok opened =>
      cases archive with
      | error e => simp [h1] at hok
      | ok bs => simp [h1]
  · subst hw; cases old <;> simp [archiveChatCompress, osOpenFile]
  · cases old <;> cases walk <;> simp_all [archiveChatCompress, osOpenFile]

/-- Witness for C7 (amended) at concrete inputs: in simplefs an existing
archive without the overwrite flag fails and keeps everything, while with
the flag it is replaced and the workspace removed; in chat an existing
archive is replaced and the staging tree removed. -/
theorem packaging_open_and_staging_removal_witness :
    (doZipping false (some "old") (.ok "new")).result = .error "file exists" ∧
    (doZipping false (some "old") (.ok "new")).zipFile = some "old" ∧
    (doZipping false (some "old") (.ok "new")).workspaceRemoved = false ∧
    (doZipping true (some "old") (.ok "new")).zipFile = some "new" ∧
    (doZipping true (some "old") (.ok "new")).workspaceRemoved = true ∧
    (archiveChatCompress (some "prev") (.ok "arch")).archiveFile = some "arch" ∧
    (archiveChatCompress (some "prev") (.ok "arch")).stagingRemoved = true := by
  have h1 := (packaging_open_and_staging_removal false (some "old") (.ok "new")).1
    rfl "old" rfl
  have h2 := (packaging_open_and_staging_removal true (some "old") (.ok "new")).2.1
    rfl "new" rfl
  have h3 := (packaging_open_and_staging_removal true (some "prev") (.ok "arch")).2.2.2.2.1
    (some "prev") (.ok "arch") "arch" rfl
  exact ⟨h1.1, h1.2.1, h1.2.2, h2.2.1, h2.2.2, h3.2.1, h3.2.2⟩

/-- Counterexample for C8: in the simplefs archive manager a successful
zipping pass moves job `"j"` to phase `Done` but its cancel handle is still
registered in `jobCtxCancellers` — the workers never delete handles on
completion (only `cancelOrDismissJob` does) — refuting both directions of
"a handle is registered iff the phase is a working phase" and "completing a
phase removes the job's handle". -/
theorem done_job_keeps_cancel_handle :
    (workerPass .zipping (sfsState1 .Copied) "j" 0 (.ok ())).jobs "j" =
      some SFSPhase.Done ∧
    (workerPass .zipping (sfsState1 .Copied) "j" 0 (.ok ())).jobCtxCancellers "j" = true := by
  constructor <;> rfl

/-- C8 (amended): a cancel handle is registered whenever a worker claims a
job (moving it into a working phase); in the chat registry `Set` deletes the
handle when the recorded status is `COMPLETE` or `ERROR`, stores a non-nil
handle when it is `RUNNING`, and leaves the handle map alone otherwise; but
in the simplefs manager the handle registered at claim time is retained by
the worker pass whatever its outcome, so completing a phase or recording an
error does *not* remove it there and the "iff" invariant fails. -/
theorem cancelHandle_lifecycle :
    (∀ st (s : SFSState) jobID now result, s.jobs jobID = some (eligiblePhase st) →
      (workerPass st s jobID now result).jobCtxCancellers jobID = true) ∧
    (∀ (r : ChatRegistry) cancel (job : ChatJob),
      (job.status = .COMPLETE ∨ job.status = .ERROR →
        (setJob r cancel job).runningJobs job.jobID = none) ∧
      (∀ c, job.status = .RUNNING → cancel = some c →
        (setJob r cancel job).runningJobs job.jobID = some c) ∧
      (job.status = .RUNNING → cancel = none →
        (setJob r cancel job).runningJobs = r.runningJobs) ∧
      (job.status = .PAUSED ∨ job.status = .BACKGROUND_PAUSED →
        (setJob r cancel job).runningJobs = r.runningJobs)) := by
  constructor
  · intro st s jobID now result h
    cases result <;> cases st <;>
      simp [workerPass, setJobError, signalOwn, signalNext, startWorkerTask, mapUpd]
  · intro r cancel job
    refine ⟨fun hst => ?_, fun c hst hc => ?_, fun hst hc => ?_, fun hst => ?_⟩
    · rcases hst with h | h <;> simp [setJob, h, mapUpd]
    · subst hc; simp [setJob, hst, mapUpd]
    · subst hc; simp [setJob, hst]
    · rcases hst with h | h <;> simp [setJob, h]

/-- Witness for C8 (amended) at concrete inputs: an indexing-worker failure
still leaves the handle registered, and `Set` with status `COMPLETE` removes
the chat registry's handle. -/
theorem cancelHandle_lifecycle_witness :
    (workerPass .indexing (sfsState1 .Queued) "j" 0 (.error "io")).jobCtxCancellers "j" =
      true ∧
    (setJob (chatRegistry1 .RUNNING true) none ⟨"j", 3, .COMPLETE, ""⟩).runningJobs "j" =
      none := by
  exact ⟨cancelHandle_lifecycle.1 .indexing (sfsState1 .Queued) "j" 0 (.error "io") rfl,
    (cancelHandle_lifecycle.2 (chatRegistry1 .RUNNING true) none ⟨"j", 3, .COMPLETE, ""⟩).1
      (Or.inl rfl)⟩

/-- The order `jobLe` used for sorting is exactly "not strictly greater"
under the source comparator `ByJobStartedAt.Less`. -/
theorem jobLe_iff_not_jobLess (x y : ChatJob) : jobLe x y ↔ jobLess y x = false := by
  unfold jobLe jobKey jobLess
  rw [Prod.Lex.le_iff]
  rcases lt_trichotomy x.startedAt y.startedAt with h | h | h
  · have hyx : ¬ y.startedAt < x.startedAt := not_lt.mpr (le_of_lt h)
    simp [h, (ne_of_lt h).symm, hyx]
  · simp [h, not_lt]
  · have hxy : ¬ x.startedAt < y.startedAt := not_lt.mpr (le_of_lt h)
    simp [ne_of_gt h, (ne_of_gt h).symm, h, hxy]

/-- Two `jobLe`-comparable-both-ways jobs agree on the sort key. -/
theorem jobLe_antisymm_key {x y : ChatJob} (h1 : jobLe x y) (h2 : jobLe y x) :
    x.startedAt = y.startedAt ∧ x.jobID = y.jobID := by
  have hkey : jobKey x = jobKey y := le_antisymm h1 h2
  unfold jobKey at hkey
  have h1 : x.startedAt = y.startedAt := congrArg (fun p => (ofLex p).1) hkey
  have h2 : x.jobID = y.jobID := congrArg (fun p => (ofLex p).2) hkey
  exact ⟨h1, h2⟩

/-- A sorted permutation of a list of jobs with pairwise-distinct job IDs is
unique: any two `jobLe`-sorted lists that are permutations of each other and
have no duplicate `jobID` coincide. -/
theorem sortedPermUnique : ∀ l₁ l₂ : List ChatJob, l₁.Perm l₂ → l₁.Sorted jobLe →
    l₂.Sorted jobLe → (l₁.map ChatJob.jobID).Nodup → l₁ = l₂ := by
  intro l₁
  induction l₁ with
  | nil =>
    intro l₂ hp _ _ _
    exact (hp.symm.eq_nil).symm
  | cons a t ih =>
    intro l₂ hp hs₁ hs₂ hnd
    cases l₂ with
    | nil => exact absurd hp.eq_nil (by simp)
    | cons b t₂ =>
      have hs₁c := List.sorted_cons.mp hs₁
      have hs₂c := List.sorted_cons.mp hs₂
      simp only [List.map_cons, List.nodup_cons] at hnd
      have hab : a = b := by
        by_contra hne
        have hbmem : b ∈ a :: t := hp.symm.subset (List.mem_cons_self b t₂)
        have hamem : a ∈ b :: t₂ := hp.subset (List.mem_cons_self a t)
        have hbt : b ∈ t := by
          rcases List.mem_cons.mp hbmem with h | h
          · exact absurd h.symm hne
          · exact h
        have hat2 : a ∈ t₂ := by
          rcases List.mem_cons.mp hamem with h | h
          · exact absurd h hne
          · exact h
        have hid : a.jobID = b.jobID :=
          (jobLe_antisymm_key (hs₁c.1 b hbt) (hs₂c.1 a hat2)).2
        exact hnd.1 (by rw [hid]; exact List.mem_map_of_mem _ hbt)
      subst hab
      rw [ih t₂ hp.cons_inv hs₁c.2 hs₂c.2 hnd.2]

/-- C6: `List` returns the history's jobs sorted ascending by `startedAt`
with ties broken by ascending `jobID` (the sorting order is exactly the
non-strict order induced by the source comparator `ByJobStartedAt.Less`),
and the order is deterministic: whatever iteration order the history map
yields, the same set of jobs (with their unique job IDs) lists in the same
order. -/
theorem listJobs_sorted_deterministic (jobs : List ChatJob) :
    (∀ x y, jobLe x y ↔ jobLess y x = false) ∧
    (listJobs jobs).Perm jobs ∧
    (listJobs jobs).Sorted (fun x y =>
      x.startedAt < y.startedAt ∨ (x.startedAt = y.startedAt ∧ x.jobID ≤ y.jobID)) ∧
    (∀ other, jobs.Perm other → (jobs.map ChatJob.jobID).Nodup →
      listJobs jobs = listJobs other) := by
  refine ⟨jobLe_iff_not_jobLess, List.perm_insertionSort jobLe jobs, ?_, ?_⟩
  · have hs := List.sorted_insertionSort jobLe jobs
    refine hs.imp (fun {x y} hxy => ?_)
    have := (Prod.Lex.le_iff (x.startedAt, x.jobID) (y.startedAt, y.jobID)).mp hxy
    exact this
  · intro other hperm hnd
    have hnd₁ : ((listJobs jobs).map ChatJob.jobID).Nodup :=
      (((List.perm_insertionSort jobLe jobs).map ChatJob.jobID).nodup_iff).mpr hnd
    refine sortedPermUnique (listJobs jobs) (listJobs other) ?_
      (List.sorted_insertionSort jobLe jobs) (List.sorted_insertionSort jobLe other) hnd₁
    exact (List.perm_insertionSort jobLe jobs).trans
      (hperm.trans (List.perm_insertionSort jobLe other).symm)

/-- Witness for C6 at a concrete input: two iteration orders of the same
three jobs list identically, and in ascending `startedAt` order. -/
theorem listJobs_sorted_deterministic_witness :
    listJobs [⟨"b", 3, .COMPLETE, ""⟩, ⟨"a", 2, .RUNNING, ""⟩, ⟨"c", 1, .PAUSED, ""⟩] =
      listJobs [⟨"c", 1, .PAUSED, ""⟩, ⟨"a", 2, .RUNNING, ""⟩, ⟨"b", 3, .COMPLETE, ""⟩] ∧
    listJobs [⟨"b", 3, .COMPLETE, ""⟩, ⟨"a", 2, .RUNNING, ""⟩, ⟨"c", 1, .PAUSED, ""⟩] =
      [⟨"c", 1, .PAUSED, ""⟩, ⟨"a", 2, .RUNNING, ""⟩, ⟨"b", 3, .COMPLETE, ""⟩] := by
  constructor
  · exact (listJobs_sorted_deterministic
      [⟨"b", 3, .COMPLETE, ""⟩, ⟨"a", 2, .RUNNING, ""⟩, ⟨"c", 1, .PAUSED, ""⟩]).2.2.2
      [⟨"c", 1, .PAUSED, ""⟩, ⟨"a", 2, .RUNNING, ""⟩, ⟨"b", 3, .COMPLETE, ""⟩]
      (by decide) (by decide)
  · decide
